import Mathlib

/-!
Verification of the chunking-and-embedding ingestion pipeline of this
repository (src/services/base.py and src/services/service.py).

The pipeline is shallowly embedded as follows.

* The pretrained subword tokenizer (module-level `tokenizer`, an external
  model) is abstracted as a `Tokenizer` record with an `encode` function
  (`tokenizer(text, return_tensors="pt")["input_ids"][0]`, a sequence of
  token ids) and a `decode` function
  (`tokenizer.decode(chunk_tokens, skip_special_tokens=True)`).
* Python `int` values are `Int`, Python `float` values are modelled as
  exact rationals (`Rat`); the literal `0.2` becomes `mkRat 2 10`.
* Python list slicing `l[i : j]` is `pySlice`, `range(0, stop, step)` is
  `pyRange` (raising `ValueError` for `step = 0` becomes an `Except.error`),
  and `int(x)`, which truncates a float toward zero, is realised by
  `Int.tdiv` in `pyIntMul`.
* A raised Python exception is an `Except.error` carrying `str(e)`; code
  paths that cannot raise return `Except.ok` (or are plain functions).
* The remote embedding endpoint (`requests.post` plus JSON decoding in
  `IngestorService.generate_embeddings`) is an external system; a single
  exchange with it is abstracted as an `EmbedHttp` value: either a
  well-formed response with a status code and the list of vectors carried
  by `response_json["data"]`, or an exception raised by the transport /
  body parsing.
* The `Result` object of src/services/base.py is a `success` flag, an
  insertion-ordered string-keyed dictionary `data`, and an `errors` list;
  `self.result[k] = v` is `dictSet`.
-/

namespace Services

/-- Model of the Python expression `int(w * overlap)` for an integer `w`
and a rational `overlap` (src/services/service.py line 78).  The exact
product `w * overlap` equals `(w * overlap.num) / overlap.den`, and Python
`int()` truncates toward zero, which on integers with a positive
denominator is `Int.tdiv`. -/
def pyIntMul (w : ℤ) (ov : ℚ) : ℤ :=
  Int.tdiv (w * ov.num) (ov.den : ℤ)

/-- Clamp a Python slice index to the interval `[0, len]`: a negative
index counts from the end of the list, and indices beyond the end are
clamped to `len`. -/
def pyBound (len : ℕ) (k : ℤ) : ℕ :=
  if k < 0 then ((len : ℤ) + k).toNat else min k.toNat len

/-- Python list/tensor slicing `l[i : j]` (src/services/service.py
line 81). -/
def pySlice {α : Type} (l : List α) (i j : ℤ) : List α :=
  (l.take (pyBound l.length j)).drop (pyBound l.length i)

/-- Python `range(0, stop, step)` as the list of produced indices
(src/services/service.py line 80).  A zero step raises `ValueError`; a
negative step with a non-negative stop yields no iterations; a positive
step yields the multiples of `step` below `stop`, of which there are
exactly `ceil(stop / step)`. -/
def pyRange (stop : ℕ) (step : ℤ) : Except String (List ℕ) :=
  if step = 0 then .error "range() arg 3 must not be zero"
  else if step < 0 then .ok []
  else .ok ((List.range ((stop + step.toNat - 1) / step.toNat)).map (fun k => k * step.toNat))

/-- Abstraction of the module-level pretrained tokenizer of
src/services/service.py (an external model): encoding a text to token ids
and decoding token ids back to text. -/
structure Tokenizer where
  encode : String → List ℕ
  decode : List ℕ → String

/-- Constant MAX_TOKENS_MODEL of src/services/service.py line 9. -/
def MAX_TOKENS_MODEL : ℤ := 8192

/-- Constant MAX_TOKENS_CHUNKING of src/services/service.py line 10. -/
def MAX_TOKENS_CHUNKING : ℤ := 512

/-- Constant OVERLAP of src/services/service.py line 11: the float
literal `0.2`, modelled as the exact rational 2/10. -/
def OVERLAP : ℚ := mkRat 2 10

/-- Truthiness of the Python expression `chunk_text.strip()`
(src/services/service.py line 83): the stripped string is non-empty, that
is, the string contains at least one non-whitespace character. -/
def pyStripTruthy (s : String) : Bool :=
  s.data.any (fun c => !c.isWhitespace)

/-- The step of the chunking loop, src/services/service.py line 78:
`step = (max_tokens - 5) - int((max_tokens - 5) * overlap)`. -/
def pyStep (max_tokens : ℤ) (overlap : ℚ) : ℤ :=
  (max_tokens - 5) - pyIntMul (max_tokens - 5) overlap

/-- `IngestorService.split_document`, src/services/service.py lines 73-86:
encode the text, walk start offsets `0, step, 2*step, ...` below the token
count, decode each window `tokens[i : i + max_tokens - 5]`, and keep the
decoded windows that are non-empty after stripping whitespace, in loop
order. -/
def split_document (tk : Tokenizer) (text : String) (max_tokens : ℤ) (overlap : ℚ) :
    Except String (List String) :=
  let tokens := tk.encode text
  match pyRange tokens.length (pyStep max_tokens overlap) with
  | .error e => .error e
  | .ok starts =>
      .ok ((starts.map (fun i : ℕ =>
            tk.decode (pySlice tokens (i : ℤ) ((i : ℤ) + (max_tokens - 5))))).filter
          pyStripTruthy)

/-- `BaseIngestor.exceeds_token_limit`, src/services/service.py
lines 114-121: true iff the token count of the text is strictly greater
than the token limit. -/
def exceeds_token_limit (tk : Tokenizer) (text : String) (token_limit : ℤ) : Bool :=
  decide (((tk.encode text).length : ℤ) > token_limit)

/-- The document-list construction of `BaseIngestor.__init__`,
src/services/service.py lines 99-110: chunk when `force_chunking` is set
or the limit is exceeded, using the provided chunking parameters when
present and the module defaults otherwise; otherwise the document list is
`[text]`.  This runs in the constructor, before `Service.run` is entered,
so an exception here (`Except.error`) is raised to the caller. -/
def base_ingestor_documents (tk : Tokenizer) (text : String) (token_limit : ℤ)
    (chunking_params : Option (ℤ × ℚ)) (force_chunking : Bool) :
    Except String (List String) :=
  if force_chunking || exceeds_token_limit tk text token_limit then
    match chunking_params with
    | some (mt, ov) => split_document tk text mt ov
    | none => split_document tk text MAX_TOKENS_CHUNKING OVERLAP
  else
    .ok [text]

/-- One exchange with the remote embedding endpoint inside the `try`
block of `IngestorService.generate_embeddings` (src/services/service.py
lines 44-67): either a well-formed HTTP response carrying a status code
and the embedding vectors listed under `data` in the JSON body, or an
exception raised by the transport or by decoding of the body, carrying
its message. -/
inductive EmbedHttp where
  | response (status : ℕ) (body : List (List ℚ))
  | raised (msg : String)

/-- `IngestorService.generate_embeddings`, src/services/service.py
lines 43-71.  A non-200 status raises
`RuntimeError("Embedding service error: {status}")` inside the `try`
block; every exception of the `try` block is caught and re-raised as
`RuntimeError("Error generating embeddings: {e}")`.  On a 200 response
the vectors of the body are returned as they are: their number is never
compared with the number of documents sent. -/
def generate_embeddings (http : EmbedHttp) (document_list : List String) :
    Except String (List (List ℚ)) :=
  match http with
  | .raised msg => .error ("Error generating embeddings: " ++ msg)
  | .response status body =>
      if status ≠ 200 then
        .error ("Error generating embeddings: Embedding service error: " ++ toString status)
      else
        .ok body

/-- A value stored in the `data` dictionary of a `Result`
(src/services/base.py): the record id, the record type, the document
list, or the embedding list. -/
inductive Value where
  | intVal (n : ℤ)
  | strVal (s : String)
  | docsVal (ds : List String)
  | embsVal (es : List (List ℚ))

/-- Python dictionary assignment `d[k] = v` on an insertion-ordered
string-keyed dictionary (`Result.__setitem__`, src/services/base.py
lines 39-40): overwrite in place when the key is present, append
otherwise. -/
def dictSet (d : List (String × Value)) (k : String) (v : Value) : List (String × Value) :=
  if d.any (fun p => p.1 == k) then d.map (fun p => if p.1 == k then (k, v) else p)
  else d ++ [(k, v)]

/-- The state of an `IngestorService` instance after `__init__`
(src/services/service.py lines 19-30). -/
structure IngestorService where
  record_id : ℤ
  record_type : String
  documents : List String
  token_limit : ℤ

/-- `IngestorService._execute`, src/services/service.py lines 32-41, run
against a fresh empty `Result` data dictionary: `generate_embeddings` is
called first, and only after it has returned are the four result keys
assigned, in source order.  An exception from `generate_embeddings`
therefore leaves the data dictionary empty. -/
def _execute (http : EmbedHttp) (s : IngestorService) :
    Except String (List (String × Value)) :=
  match generate_embeddings http s.documents with
  | .error e => .error e
  | .ok embeddings =>
      .ok (dictSet (dictSet (dictSet (dictSet [] "record_id" (.intVal s.record_id))
            "record_type" (.strVal s.record_type)) s.record_type (.docsVal s.documents))
            "embeddings" (.embsVal embeddings))

/-- The `Result` object of src/services/base.py lines 23-76: a success
flag, the data dictionary, and the list of error messages. -/
structure Result where
  success : Bool
  data : List (String × Value)
  errors : List String

/-- `Service.run`, src/services/base.py lines 11-16, on a fresh
`IngestorService`: `_execute` is attempted; any exception it raises is
caught and recorded with `add_error` (which appends the message and
clears the success flag), so `run` always returns a `Result` and never
raises. -/
def run (http : EmbedHttp) (s : IngestorService) : Result :=
  match _execute http s with
  | .ok d => ⟨true, d, []⟩
  | .error e => ⟨false, [], [e]⟩

/-- The whole pipeline as exercised by callers: construct a
`BaseIngestor` (src/services/service.py lines 89-112), which builds the
document list in `__init__`, then call `Service.run` on it.  An exception
raised during construction (in particular from `split_document`) is NOT
caught by `run` and propagates to the caller, which the outer
`Except String` records. -/
def ingest (tk : Tokenizer) (http : EmbedHttp) (text : String) (record_id : ℤ)
    (record_type : String) (token_limit : ℤ) (force_chunking : Bool)
    (chunking_params : Option (ℤ × ℚ)) : Except String Result :=
  match base_ingestor_documents tk text token_limit chunking_params force_chunking with
  | .error e => .error e
  | .ok documents => .ok (run http ⟨record_id, record_type, documents, token_limit⟩)

/-- Lookup of a key in the data dictionary of a `Result`
(`Result.__getitem__`, src/services/base.py lines 36-37). -/
def Result.getKey (r : Result) (k : String) : Option Value :=
  (r.data.find? (fun p => p.1 == k)).map (fun p => p.2)

/-! Concrete tokenizer instances used to evaluate the pipeline on
concrete inputs.  Each fixes an encoding of sample texts into token-id
sequences and a decoding of token windows back to strings. -/

/-- A tokenizer mapping every text to three token ids, every window
decoding to the word `d`. -/
def tokThree : Tokenizer := ⟨fun _ => [0, 1, 2], fun _ => "d"⟩

/-- A tokenizer mapping every text to one token id, every window
decoding to the word `d`. -/
def tokOne : Tokenizer := ⟨fun _ => [0], fun _ => "d"⟩

/-- A tokenizer mapping every text to one token id, every window
decoding to a single space (as for whitespace-only source text). -/
def tokSpace : Tokenizer := ⟨fun _ => [0], fun _ => " "⟩

/-- A tokenizer mapping every text to seven token ids, every non-empty
window decoding to the word `a` padded with surrounding whitespace. -/
def tokPad : Tokenizer := ⟨fun _ => List.range 7, fun l => if l.isEmpty then "" else " a "⟩

/-- A tokenizer mapping every text to seven token ids; a window decodes
to the word `x` when it starts at token id 0, 3 or 6 and to the empty
string otherwise (as for text with interior whitespace runs). -/
def tokHead : Tokenizer :=
  ⟨fun _ => List.range 7, fun l =>
    match l.head? with
    | some 0 => "x"
    | some 3 => "x"
    | some 6 => "x"
    | _ => ""⟩

/-- A tokenizer mapping every text to two thousand identical token ids,
every non-empty window decoding to the word `x`. -/
def tokTwoThousand : Tokenizer :=
  ⟨fun _ => List.replicate 2000 0, fun l => if l.isEmpty then "" else "x"⟩

/-! Helper lemmas about the embedded Python primitives. -/

/-- On non-negative arguments the Python `int(w * overlap)` truncation
agrees with the floor of the exact product. -/
lemma pyIntMul_eq_floor (w : ℤ) (ov : ℚ) (hw : 0 ≤ w) (ho : 0 ≤ ov) :
    pyIntMul w ov = ⌊(w : ℚ) * ov⌋ := by
  have hnum : 0 ≤ ov.num := Rat.num_nonneg.mpr ho
  have key : ((w * ov.num : ℤ) : ℚ) / ((ov.den : ℕ) : ℚ) = (w : ℚ) * ov := by
    push_cast
    rw [mul_div_assoc, Rat.num_div_den]
  rw [pyIntMul, Int.tdiv_eq_ediv (mul_nonneg hw hnum) (Int.ofNat_nonneg ov.den),
    ← Rat.floor_intCast_div_natCast, key]

/-- For `max_tokens ≥ 6` and an overlap in `[0, 1)` the chunking step is
at least 1. -/
lemma pyStep_pos (mt : ℤ) (ov : ℚ) (hmt : 6 ≤ mt) (h0 : 0 ≤ ov) (h1 : ov < 1) :
    1 ≤ pyStep mt ov := by
  rw [pyStep, pyIntMul_eq_floor _ _ (by omega) h0]
  have hwq : (0 : ℚ) < ((mt - 5 : ℤ) : ℚ) := by
    have : (0 : ℤ) < mt - 5 := by omega
    exact_mod_cast this
  have hflt : ⌊((mt - 5 : ℤ) : ℚ) * ov⌋ < mt - 5 := by
    rw [Int.floor_lt]
    calc ((mt - 5 : ℤ) : ℚ) * ov < ((mt - 5 : ℤ) : ℚ) * 1 := by
          exact mul_lt_mul_of_pos_left h1 hwq
      _ = ((mt - 5 : ℤ) : ℚ) := mul_one _
  omega

/-- For `max_tokens ≥ 6` and a non-negative overlap the chunking step is
at most the effective window `max_tokens - 5`. -/
lemma pyStep_le (mt : ℤ) (ov : ℚ) (hmt : 6 ≤ mt) (h0 : 0 ≤ ov) :
    pyStep mt ov ≤ mt - 5 := by
  rw [pyStep, pyIntMul_eq_floor _ _ (by omega) h0]
  have hw : (0 : ℚ) ≤ ((mt - 5 : ℤ) : ℚ) := by
    have : (0 : ℤ) ≤ mt - 5 := by omega
    exact_mod_cast this
  have : 0 ≤ ⌊((mt - 5 : ℤ) : ℚ) * ov⌋ := Int.floor_nonneg.mpr (mul_nonneg hw h0)
  omega

/-- The chunking step does not grow when the overlap grows. -/
lemma pyStep_anti (mt : ℤ) (ov1 ov2 : ℚ) (hmt : 6 ≤ mt) (h0 : 0 ≤ ov1) (h12 : ov1 ≤ ov2) :
    pyStep mt ov2 ≤ pyStep mt ov1 := by
  rw [pyStep, pyStep, pyIntMul_eq_floor _ _ (by omega) h0,
    pyIntMul_eq_floor _ _ (by omega) (le_trans h0 h12)]
  have hw : (0 : ℚ) ≤ ((mt - 5 : ℤ) : ℚ) := by
    have : (0 : ℤ) ≤ mt - 5 := by omega
    exact_mod_cast this
  have := Int.floor_le_floor (mul_le_mul_of_nonneg_left h12 hw)
  omega

/-- A `pyRange` call with positive step yields the multiples of the step
below the stop. -/
lemma pyRange_of_pos (stop : ℕ) (step : ℤ) (h : 1 ≤ step) :
    pyRange stop step =
      .ok ((List.range ((stop + step.toNat - 1) / step.toNat)).map (fun k => k * step.toNat)) := by
  rw [pyRange, if_neg (by omega), if_neg (by omega)]

/-- Characterization of `split_document` when the step is positive:
decode every window at the produced start offsets and keep the truthy
ones, in order. -/
lemma split_document_of_pos (tk : Tokenizer) (text : String) (mt : ℤ) (ov : ℚ)
    (h : 1 ≤ pyStep mt ov) :
    split_document tk text mt ov =
      .ok ((((List.range (((tk.encode text).length + (pyStep mt ov).toNat - 1) /
              (pyStep mt ov).toNat)).map (fun k => k * (pyStep mt ov).toNat)).map
            (fun i : ℕ => tk.decode (pySlice (tk.encode text) (i : ℤ) ((i : ℤ) + (mt - 5))))).filter
          pyStripTruthy) := by
  rw [split_document]
  rw [pyRange_of_pos _ _ h]

/-- Ceiling division `(T + s - 1) / s` is antitone in the step `s`. -/
lemma ceilDiv_anti (T s1 s2 : ℕ) (h2 : 1 ≤ s2) (h12 : s2 ≤ s1) :
    (T + s1 - 1) / s1 ≤ (T + s2 - 1) / s2 := by
  have hs1 : 0 < s1 := by omega
  set q := (T + s2 - 1) / s2 with hq
  have hk : T + s2 - 1 < (q + 1) * s2 :=
    (Nat.div_lt_iff_lt_mul (by omega)).mp (Nat.lt_succ_self _)
  have hk2 : (q + 1) * s2 = q * s2 + s2 := by ring
  have hT : T ≤ q * s2 := by omega
  have hmul : q * s2 ≤ q * s1 := Nat.mul_le_mul_left _ h12
  have hlt : (T + s1 - 1) / s1 < q + 1 := by
    rw [Nat.div_lt_iff_lt_mul hs1]
    have hexp : (q + 1) * s1 = q * s1 + s1 := by ring
    omega
  omega

/-- Ceiling division of a positive `T ≤ s` by `s` is exactly one. -/
lemma ceilDiv_eq_one (T s : ℕ) (h1 : 1 ≤ T) (h2 : T ≤ s) : (T + s - 1) / s = 1 :=
  Nat.div_eq_of_lt_le (by omega) (by omega)

/-- Ceiling division of a positive `T` by a positive `s` is at least
one. -/
lemma one_le_ceilDiv (T s : ℕ) (hT : 1 ≤ T) (hs : 1 ≤ s) : 1 ≤ (T + s - 1) / s := by
  rw [Nat.one_le_div_iff (by omega)]
  omega

/-- Every start offset produced by the chunking loop lies strictly below
the token count. -/
lemma start_lt_of_mem (T s : ℕ) (hs : 1 ≤ s) (i : ℕ)
    (hi : i ∈ (List.range ((T + s - 1) / s)).map (fun k => k * s)) : i < T := by
  rcases List.mem_map.mp hi with ⟨k, hk, rfl⟩
  rw [List.mem_range] at hk
  have hle : ((T + s - 1) / s) * s ≤ T + s - 1 := Nat.div_mul_le_self _ _
  have hk1 : (k + 1) * s ≤ ((T + s - 1) / s) * s := Nat.mul_le_mul_right _ (by omega)
  have hexp : (k + 1) * s = k * s + s := by ring
  have hn : 1 ≤ (T + s - 1) / s := by omega
  have hTpos : 1 ≤ T := by
    by_contra hT
    have : T = 0 := by omega
    subst this
    have : (s - 1) / s = 0 := Nat.div_eq_of_lt (by omega)
    omega
  omega

/-- A Python slice bound never exceeds the list length. -/
lemma pyBound_le (len : ℕ) (k : ℤ) : pyBound len k ≤ len := by
  rw [pyBound]
  split
  · omega
  · omega

/-- The length of a Python slice is the distance between its clamped
bounds. -/
lemma pySlice_length {α : Type} (l : List α) (i j : ℤ) :
    (pySlice l i j).length = pyBound l.length j - pyBound l.length i := by
  rw [pySlice, List.length_drop, List.length_take]
  have := pyBound_le l.length j
  omega

/-- A Python slice from zero up to at least the length returns the whole
list. -/
lemma pySlice_all {α : Type} (l : List α) (j : ℤ) (hj : (l.length : ℤ) ≤ j) :
    pySlice l 0 j = l := by
  have h0 : pyBound l.length 0 = 0 := by
    rw [pyBound]
    simp
  have hjj : pyBound l.length j = l.length := by
    rw [pyBound, if_neg (by omega)]
    omega
  rw [pySlice, h0, hjj, List.drop_zero, List.take_length]

/-- A window slice starting inside the list with positive width is
non-empty. -/
lemma pySlice_ne_nil {α : Type} (l : List α) (i : ℕ) (w : ℤ)
    (hi : i < l.length) (hw : 1 ≤ w) : pySlice l (i : ℤ) ((i : ℤ) + w) ≠ [] := by
  have hbi : pyBound l.length (i : ℤ) = i := by
    rw [pyBound, if_neg (by omega)]
    omega
  have hbj : i + 1 ≤ pyBound l.length ((i : ℤ) + w) := by
    rw [pyBound, if_neg (by omega)]
    omega
  have hlen : 1 ≤ (pySlice l (i : ℤ) ((i : ℤ) + w)).length := by
    rw [pySlice_length, hbi]
    omega
  intro hcon
  rw [hcon] at hlen
  simp at hlen

/-- Looking up the record-type key and the `embeddings` key in the data
dictionary built by `_execute`: the record-type key holds the document
list (also when the record type collides with `record_id` or
`record_type`, since the assignment overwrites in place), and the
`embeddings` key, assigned last, holds the vectors, provided the record
type is not itself the string `embeddings`. -/
lemma execute_dict_find (rid : ℤ) (rt : String) (ds : List String) (es : List (List ℚ))
    (hrt : rt ≠ "embeddings") :
    ((dictSet (dictSet (dictSet (dictSet [] "record_id" (.intVal rid))
        "record_type" (.strVal rt)) rt (.docsVal ds)) "embeddings" (.embsVal es)).find?
          (fun p => p.1 == rt) = some (rt, .docsVal ds)) ∧
    ((dictSet (dictSet (dictSet (dictSet [] "record_id" (.intVal rid))
        "record_type" (.strVal rt)) rt (.docsVal ds)) "embeddings" (.embsVal es)).find?
          (fun p => p.1 == "embeddings") = some ("embeddings", .embsVal es)) := by
  by_cases h1 : rt = "record_id"
  · subst h1
    exact ⟨rfl, rfl⟩
  · by_cases h2 : rt = "record_type"
    · subst h2
      exact ⟨rfl, rfl⟩
    · have e1 : (("record_id" : String) == rt) = false :=
        beq_eq_false_iff_ne.mpr (Ne.symm h1)
      have e2 : (("record_type" : String) == rt) = false :=
        beq_eq_false_iff_ne.mpr (Ne.symm h2)
      have e3 : ((rt : String) == rt) = true := beq_self_eq_true rt
      have e4 : ((rt : String) == "embeddings") = false := beq_eq_false_iff_ne.mpr hrt
      have e5 : (("record_id" : String) == "record_type") = false := rfl
      have e6 : (("record_id" : String) == "embeddings") = false := rfl
      have e7 : (("record_type" : String) == "embeddings") = false := rfl
      have e8 : (("record_id" : String) == "record_id") = true := rfl
      have e9 : (("record_type" : String) == "record_type") = true := rfl
      have e10 : (("embeddings" : String) == "embeddings") = true := rfl
      constructor <;>
        simp only [dictSet, List.any_nil, List.any_cons, List.map_nil, List.map_cons,
          List.find?, e1, e2, e3, e4, e5, e6, e7, e8, e9, e10, Bool.or_self, Bool.or_false,
          Bool.false_or, Bool.or_true, Bool.true_or, if_false, if_true, Bool.false_eq_true,
          List.nil_append, List.cons_append, List.append_nil]

/-- The five start offsets of the 2000-token scenario all lie below
2000. -/
lemma mem_scenario_starts_lt (i : ℕ)
    (hi : i ∈ ([0, 406, 812, 1218, 1624] : List ℕ)) : i < 2000 := by
  simp only [List.mem_cons] at hi
  rcases hi with rfl | rfl | rfl | rfl | rfl | hf
  · omega
  · omega
  · omega
  · omega
  · omega
  · exact absurd hf (List.not_mem_nil i)

/-! Claim theorems. -/

/-- C9: for every `max_tokens ≥ 6` and every overlap in `[0, 1)` (with
exact arithmetic), the computed step
`(max_tokens - 5) - int((max_tokens - 5) * overlap)` is at least 1, so
the chunking loop range is well-formed (the zero-step error branch of
`range` is unreachable) and `split_document` terminates, returning a
finite list and no error. -/
theorem C9_step_positive (mt : ℤ) (ov : ℚ) (hmt : 6 ≤ mt) (h0 : 0 ≤ ov) (h1 : ov < 1) :
    1 ≤ pyStep mt ov ∧
      ∀ tk text, ∃ cs, split_document tk text mt ov = .ok cs := by
  have hs := pyStep_pos mt ov hmt h0 h1
  exact ⟨hs, fun tk text => ⟨_, split_document_of_pos tk text mt ov hs⟩⟩

/-- Witness for C9 at `max_tokens = 512` and `overlap = 2/10`. -/
theorem C9_witness :
    1 ≤ pyStep 512 (mkRat 2 10) ∧
      ∃ cs, split_document tokOne "hi" 512 (mkRat 2 10) = .ok cs := by
  have h := C9_step_positive 512 (mkRat 2 10) (by decide) (by decide) (by decide)
  exact ⟨h.1, h.2 tokOne "hi"⟩

/-- C5: chunking is performed iff `force_chunking` is true or the token
count of the text strictly exceeds `token_limit`; when chunking is
performed the provided chunking parameters are used when present and the
defaults `max_tokens = 512`, `overlap = 2/10` otherwise; when chunking is
not performed the document list is exactly `[text]`. -/
theorem C5_decision_rule (tk : Tokenizer) (text : String) (tl : ℤ)
    (cp : Option (ℤ × ℚ)) (fc : Bool) :
    (¬ (fc = true ∨ ((tk.encode text).length : ℤ) > tl) →
        base_ingestor_documents tk text tl cp fc = .ok [text]) ∧
    ((fc = true ∨ ((tk.encode text).length : ℤ) > tl) →
      (∀ mt ov, cp = some (mt, ov) →
          base_ingestor_documents tk text tl cp fc = split_document tk text mt ov) ∧
      (cp = none →
          base_ingestor_documents tk text tl cp fc = split_document tk text 512 (mkRat 2 10))) := by
  have hcond_t : (fc = true ∨ ((tk.encode text).length : ℤ) > tl) →
      (fc || exceeds_token_limit tk text tl) = true := by
    intro h
    rcases h with h | h
    · rw [h, Bool.true_or]
    · rw [exceeds_token_limit, decide_eq_true h, Bool.or_true]
  constructor
  · intro h
    push_neg at h
    obtain ⟨h1, h2⟩ := h
    have hfc : fc = false := by
      cases fc
      · rfl
      · exact absurd rfl h1
    have hex : exceeds_token_limit tk text tl = false := by
      rw [exceeds_token_limit, decide_eq_false_iff_not]
      exact not_lt.mpr h2
    rw [base_ingestor_documents.eq_def, hfc, hex]
    rfl
  · intro h
    refine ⟨?_, ?_⟩
    · intro mt ov hcp
      rw [base_ingestor_documents.eq_def, hcond_t h, hcp]
      rfl
    · intro hcp
      rw [base_ingestor_documents.eq_def, hcond_t h, hcp]
      rfl

/-- Witness for C5: one token, no forcing, limit 8192, so no chunking
and the document list is the singleton text. -/
theorem C5_witness :
    base_ingestor_documents tokOne "hi" 8192 none false = .ok ["hi"] :=
  (C5_decision_rule tokOne "hi" 8192 none false).1 (by decide)

/-- C8: when the embedding endpoint responds with a non-200 status, the
pipeline returns (does not raise) a failure Result whose error list is
the single whole-batch message naming the status, and whose data mapping
is empty (no partial per-chunk success). -/
theorem C8_non200_failure (tk : Tokenizer) (text : String) (rid : ℤ) (rt : String)
    (tl : ℤ) (fc : Bool) (cp : Option (ℤ × ℚ)) (ds : List String)
    (status : ℕ) (body : List (List ℚ))
    (h : base_ingestor_documents tk text tl cp fc = .ok ds) (hs : status ≠ 200) :
    ∃ r, ingest tk (.response status body) text rid rt tl fc cp = .ok r ∧
      r.success = false ∧
      r.errors = ["Error generating embeddings: Embedding service error: " ++ toString status] ∧
      r.data = [] := by
  have hge : generate_embeddings (.response status body) ds =
      .error ("Error generating embeddings: Embedding service error: " ++ toString status) := by
    simp only [generate_embeddings]
    rw [if_pos hs]
  have hrun : run (.response status body) (⟨rid, rt, ds, tl⟩ : IngestorService) =
      ⟨false, [], ["Error generating embeddings: Embedding service error: " ++ toString status]⟩ := by
    simp only [run, _execute, hge]
  refine ⟨run (.response status body) ⟨rid, rt, ds, tl⟩, by simp only [ingest, h], ?_, ?_, ?_⟩ <;>
    rw [hrun]

/-- Witness for C8 at status 500. -/
theorem C8_witness :
    ∃ r, ingest tokOne (.response 500 []) "hi" 3 "text" 8192 false none = .ok r ∧
      r.success = false ∧
      r.errors = ["Error generating embeddings: Embedding service error: " ++ toString 500] ∧
      r.data = [] :=
  C8_non200_failure tokOne "hi" 3 "text" 8192 false none ["hi"] 500 [] rfl (by decide)

/-- C10: when the embedding call fails during execution, `run` returns a
failed Result whose data mapping is empty: none of the keys
`record_id`, `record_type`, the record-type-named documents key, or
`embeddings` is populated, because all result fields are assigned only
after the embedding call has returned. -/
theorem C10_atomic_on_error (http : EmbedHttp) (s : IngestorService) (e : String)
    (h : generate_embeddings http s.documents = .error e) :
    run http s = ⟨false, [], [e]⟩ ∧
      (run http s).getKey "record_id" = none ∧
      (run http s).getKey "record_type" = none ∧
      (run http s).getKey s.record_type = none ∧
      (run http s).getKey "embeddings" = none := by
  have hrun : run http s = ⟨false, [], [e]⟩ := by
    simp only [run, _execute, h]
  refine ⟨hrun, ?_, ?_, ?_, ?_⟩ <;> rw [hrun] <;> rfl

/-- C1 counterexample: with `force_chunking = True` and chunking
parameters `max_tokens = 512`, `overlap = 1.0`, the chunking step is
zero, and the `ValueError` raised by `range` inside
`BaseIngestor.__init__` is not caught by `Service.run` (which only wraps
`_execute`): it escapes to the caller as a raised fault instead of being
converted into a failure Result. -/
theorem C1_counterexample :
    ingest tokThree (.response 200 [[1]]) "x" 0 "text" 8192 true (some (512, mkRat 1 1)) =
      .error "range() arg 3 must not be zero" := rfl

/-- C1 amended: only errors raised during the embedding phase (inside
`Service.run` / `_execute`) are caught at the orchestrator boundary and
converted into a failure Result; once the document list has been built
successfully in the constructor, `ingest` always returns a Result, and
any embedding failure is recorded as a failed Result with the error
message.  Errors raised while building the document list in
`BaseIngestor.__init__` (tokenization or chunking-configuration errors)
propagate to the caller as raised faults. -/
theorem C1_amended_embedding_errors_caught (tk : Tokenizer) (http : EmbedHttp)
    (text : String) (rid : ℤ) (rt : String) (tl : ℤ) (fc : Bool)
    (cp : Option (ℤ × ℚ)) (ds : List String)
    (h : base_ingestor_documents tk text tl cp fc = .ok ds) :
    ingest tk http text rid rt tl fc cp = .ok (run http ⟨rid, rt, ds, tl⟩) ∧
      ∀ e, generate_embeddings http ds = .error e →
        (run http (⟨rid, rt, ds, tl⟩ : IngestorService)).success = false ∧
        (run http (⟨rid, rt, ds, tl⟩ : IngestorService)).errors = [e] := by
  constructor
  · simp only [ingest, h]
  · intro e he
    have hrun : run http (⟨rid, rt, ds, tl⟩ : IngestorService) = ⟨false, [], [e]⟩ := by
      simp only [run, _execute, he]
    rw [hrun]
    exact ⟨rfl, rfl⟩

/-- Witness for the amended C1: a raised transport error is converted
into a failure Result, not re-raised. -/
theorem C1_witness :
    ingest tokOne (.raised "boom") "hi" 0 "text" 8192 false none =
        .ok (run (.raised "boom") ⟨0, "text", ["hi"], 8192⟩) ∧
      (run (.raised "boom") (⟨0, "text", ["hi"], 8192⟩ : IngestorService)).success = false := by
  have h := C1_amended_embedding_errors_caught tokOne (.raised "boom") "hi" 0 "text" 8192
    false none ["hi"] rfl
  exact ⟨h.1, (h.2 "Error generating embeddings: boom" rfl).1⟩

/-- C2 counterexample: the endpoint answers status 200 with two vectors
for the single document sent; the pipeline returns a SUCCESS Result
carrying one document under the key `text` and two embedding vectors,
instead of treating the count mismatch as a failure. -/
theorem C2_counterexample :
    ingest tokOne (.response 200 [[1], [2]]) "x" 7 "text" 8192 false none =
      .ok ⟨true, [("record_id", .intVal 7), ("record_type", .strVal "text"),
        ("text", .docsVal ["x"]), ("embeddings", .embsVal [[1], [2]])], []⟩ := rfl

/-- C2 amended: on a well-formed 200 response the result is a success
that stores the document list under the record-type key and exactly the
vectors carried by the response under `embeddings`, with no alignment
check: the two stored lists have equal lengths iff the endpoint returned
one vector per chunk, and a mismatched vector count still yields a
success, not a failure.  (The record type must differ from the literal
key `embeddings`, which is assigned last and would overwrite the
documents.) -/
theorem C2_amended_no_alignment_check (tk : Tokenizer) (text : String) (rid : ℤ)
    (rt : String) (tl : ℤ) (fc : Bool) (cp : Option (ℤ × ℚ)) (ds : List String)
    (vecs : List (List ℚ))
    (h : base_ingestor_documents tk text tl cp fc = .ok ds)
    (hrt : rt ≠ "embeddings") :
    ∃ r, ingest tk (.response 200 vecs) text rid rt tl fc cp = .ok r ∧
      r.success = true ∧
      r.getKey rt = some (.docsVal ds) ∧
      r.getKey "embeddings" = some (.embsVal vecs) := by
  have hge : generate_embeddings (.response 200 vecs) ds = .ok vecs := by
    simp only [generate_embeddings]
    rw [if_neg (by omega)]
  have hrun : run (.response 200 vecs) (⟨rid, rt, ds, tl⟩ : IngestorService) =
      ⟨true, dictSet (dictSet (dictSet (dictSet [] "record_id" (.intVal rid))
        "record_type" (.strVal rt)) rt (.docsVal ds)) "embeddings" (.embsVal vecs), []⟩ := by
    simp only [run, _execute, hge]
  refine ⟨run (.response 200 vecs) ⟨rid, rt, ds, tl⟩, by simp only [ingest, h], ?_, ?_, ?_⟩
  · rw [hrun]
  · rw [hrun, Result.getKey]
    rw [(execute_dict_find rid rt ds vecs hrt).1]
    rfl
  · rw [hrun, Result.getKey]
    rw [(execute_dict_find rid rt ds vecs hrt).2]
    rfl

/-- Witness for the amended C2: one document, two vectors, success with
both stored. -/
theorem C2_witness :
    ∃ r, ingest tokOne (.response 200 [[1], [2]]) "y" 9 "doc" 8192 false none = .ok r ∧
      r.success = true ∧
      r.getKey "doc" = some (.docsVal ["y"]) ∧
      r.getKey "embeddings" = some (.embsVal [[1], [2]]) :=
  C2_amended_no_alignment_check tokOne "y" 9 "doc" 8192 false none ["y"] [[1], [2]]
    rfl (by decide)

/-- C3 counterexample: seven tokens, `max_tokens = 12` (effective window
7, step 6, both at least 1), non-empty text: the token count 7 is at
most `max_tokens - 5 = 7`, yet `split_document` returns TWO chunks (the
loop continues past the first full window because the step is smaller
than the token count), and the returned chunks keep their surrounding
whitespace instead of being trimmed. -/
theorem C3_counterexample :
    ((tokPad.encode "t").length : ℤ) ≤ 12 - 5 ∧
      1 ≤ pyStep 12 (mkRat 2 10) ∧
      split_document tokPad "t" 12 (mkRat 2 10) = .ok [" a ", " a "] :=
  ⟨by decide, by decide, rfl⟩

/-- C3 amended: when the token count `T` satisfies `1 ≤ T`,
`T ≤ max_tokens - 5` AND additionally `T ≤ step` (so the loop runs only
once; `T ≤ max_tokens - 5` alone is not sufficient), and the decoded
whole token sequence has a non-whitespace character, `split` returns
exactly one chunk, equal to the decoded whole token sequence as decoded
(not whitespace-trimmed). -/
theorem C3_amended_single_chunk (tk : Tokenizer) (text : String) (mt : ℤ) (ov : ℚ)
    (hstep : 1 ≤ pyStep mt ov)
    (hT1 : 1 ≤ (tk.encode text).length)
    (hTw : ((tk.encode text).length : ℤ) ≤ mt - 5)
    (hTs : ((tk.encode text).length : ℤ) ≤ pyStep mt ov)
    (hdec : pyStripTruthy (tk.decode (tk.encode text)) = true) :
    split_document tk text mt ov = .ok [tk.decode (tk.encode text)] := by
  rw [split_document_of_pos tk text mt ov hstep]
  have hone : ((tk.encode text).length + (pyStep mt ov).toNat - 1) / (pyStep mt ov).toNat = 1 :=
    ceilDiv_eq_one _ _ hT1 (by omega)
  rw [hone]
  have hr1 : (List.range 1).map (fun k => k * (pyStep mt ov).toNat) = [0] := by
    rw [show List.range 1 = [0] from rfl]
    simp
  rw [hr1]
  simp only [List.map_cons, List.map_nil, Nat.cast_zero, zero_add]
  rw [pySlice_all _ _ hTw]
  simp [hdec]

/-- Witness for the amended C3: one token, default parameters, one chunk
equal to the decoded whole sequence. -/
theorem C3_witness :
    split_document tokOne "t" 512 (mkRat 2 10) = .ok ["d"] :=
  C3_amended_single_chunk tokOne "t" 512 (mkRat 2 10)
    (by decide) (by decide) (by decide) (by decide) (by decide)

/-- C4: for a token sequence of length exactly 2000 with
`max_tokens = 512` and `overlap = 2/10`, the step is
`406 = 507 - int(507 * 0.2)`, the window start offsets are exactly
0, 406, 812, 1218, 1624, each token window is non-empty, and (when each
window decodes to a non-whitespace string, as for running text) `split`
returns exactly the five decoded windows, hence exactly 5 chunks. -/
theorem C4_scenario (tk : Tokenizer) (text : String)
    (hT : (tk.encode text).length = 2000)
    (hdec : ∀ i ∈ ([0, 406, 812, 1218, 1624] : List ℕ),
      pyStripTruthy (tk.decode (pySlice (tk.encode text) (i : ℤ) ((i : ℤ) + 507))) = true) :
    pyStep 512 (mkRat 2 10) = 406 ∧
      (∀ i ∈ ([0, 406, 812, 1218, 1624] : List ℕ),
        pySlice (tk.encode text) (i : ℤ) ((i : ℤ) + 507) ≠ []) ∧
      split_document tk text 512 (mkRat 2 10) =
        .ok (([0, 406, 812, 1218, 1624] : List ℕ).map (fun i : ℕ =>
          tk.decode (pySlice (tk.encode text) (i : ℤ) ((i : ℤ) + 507)))) ∧
      (split_document tk text 512 (mkRat 2 10)).map List.length = .ok 5 := by
  have hstep : pyStep 512 (mkRat 2 10) = 406 := by decide
  have hne : ∀ i ∈ ([0, 406, 812, 1218, 1624] : List ℕ),
      pySlice (tk.encode text) (i : ℤ) ((i : ℤ) + 507) ≠ [] := by
    intro i hi
    exact pySlice_ne_nil _ i 507 (by rw [hT]; exact mem_scenario_starts_lt i hi) (by omega)
  have hsplit : split_document tk text 512 (mkRat 2 10) =
      .ok (([0, 406, 812, 1218, 1624] : List ℕ).map (fun i : ℕ =>
        tk.decode (pySlice (tk.encode text) (i : ℤ) ((i : ℤ) + 507)))) := by
    rw [split_document_of_pos tk text 512 (mkRat 2 10) (by decide), hstep, hT]
    have ht : ((406 : ℤ)).toNat = 406 := rfl
    rw [ht]
    have hd : (2000 + 406 - 1) / 406 = 5 := by decide
    rw [hd]
    have hr : (List.range 5).map (fun k => k * 406) = [0, 406, 812, 1218, 1624] := by decide
    rw [hr]
    have hw : (512 : ℤ) - 5 = 507 := by decide
    rw [hw]
    congr 1
    apply List.filter_eq_self.mpr
    intro c hc
    rcases List.mem_map.mp hc with ⟨i, hi, rfl⟩
    exact hdec i hi
  refine ⟨hstep, hne, hsplit, ?_⟩
  rw [hsplit]
  simp [Except.map]

/-- Witness for C4: two thousand identical tokens, every non-empty
window decoding to the word `x`. -/
theorem C4_witness :
    pyStep 512 (mkRat 2 10) = 406 ∧
      (∀ i ∈ ([0, 406, 812, 1218, 1624] : List ℕ),
        pySlice (tokTwoThousand.encode "t") (i : ℤ) ((i : ℤ) + 507) ≠ []) ∧
      split_document tokTwoThousand "t" 512 (mkRat 2 10) =
        .ok (([0, 406, 812, 1218, 1624] : List ℕ).map (fun i : ℕ =>
          tokTwoThousand.decode (pySlice (tokTwoThousand.encode "t") (i : ℤ) ((i : ℤ) + 507)))) ∧
      (split_document tokTwoThousand "t" 512 (mkRat 2 10)).map List.length = .ok 5 := by
  apply C4_scenario tokTwoThousand "t"
  · rw [show tokTwoThousand.encode "t" = List.replicate 2000 0 from rfl, List.length_replicate]
  · intro i hi
    have hilt : i < 2000 := mem_scenario_starts_lt i hi
    have hlen : i < (tokTwoThousand.encode "t").length := by
      rw [show tokTwoThousand.encode "t" = List.replicate 2000 0 from rfl, List.length_replicate]
      exact hilt
    have hnenil := pySlice_ne_nil (tokTwoThousand.encode "t") i 507 hlen (by omega)
    obtain ⟨a, t2, hat⟩ : ∃ a t2,
        pySlice (tokTwoThousand.encode "t") (i : ℤ) ((i : ℤ) + 507) = a :: t2 := by
      cases hpy : pySlice (tokTwoThousand.encode "t") (i : ℤ) ((i : ℤ) + 507) with
      | nil => exact absurd hpy hnenil
      | cons a t2 => exact ⟨a, t2, rfl⟩
    rw [hat]
    rfl

/-- C6 counterexample: seven tokens, `max_tokens = 10`; with overlap 2/5
the step is 3 and three windows (starting at tokens 0, 3, 6) decode to
non-whitespace, giving 3 chunks; with the LARGER overlap 3/5 the step is
2 and of the four windows (0, 2, 4, 6) only two decode to
non-whitespace, giving 2 chunks: a larger overlap produced fewer
chunks. -/
theorem C6_counterexample :
    (0 : ℚ) ≤ mkRat 2 5 ∧ mkRat 2 5 ≤ mkRat 3 5 ∧ mkRat 3 5 < 1 ∧
      (split_document tokHead "t" 10 (mkRat 2 5)).map List.length = .ok 3 ∧
      (split_document tokHead "t" 10 (mkRat 3 5)).map List.length = .ok 2 :=
  ⟨by decide, by decide, by decide, rfl, rfl⟩

/-- C6 amended: the number of candidate windows `ceil(T / step)` is
monotonically non-decreasing as the overlap increases toward 1, and
therefore so is the returned chunk count PROVIDED no window decodes to
an empty-or-whitespace-only string (such windows are filtered out, and
repositioned windows may make the filtered count decrease). -/
theorem C6_amended_count_monotone (tk : Tokenizer) (text : String) (mt : ℤ) (ov1 ov2 : ℚ)
    (hmt : 6 ≤ mt) (h0 : 0 ≤ ov1) (h12 : ov1 ≤ ov2) (h2 : ov2 < 1)
    (hdec : ∀ l : List ℕ, l ≠ [] → pyStripTruthy (tk.decode l) = true) :
    ∃ n1 n2, (split_document tk text mt ov1).map List.length = .ok n1 ∧
      (split_document tk text mt ov2).map List.length = .ok n2 ∧ n1 ≤ n2 := by
  have hcount : ∀ ov : ℚ, 0 ≤ ov → ov < 1 →
      (split_document tk text mt ov).map List.length =
        .ok (((tk.encode text).length + (pyStep mt ov).toNat - 1) / (pyStep mt ov).toNat) := by
    intro ov hov hov1
    have hs := pyStep_pos mt ov hmt hov hov1
    rw [split_document_of_pos tk text mt ov hs]
    have hall : ∀ c ∈ ((List.range (((tk.encode text).length + (pyStep mt ov).toNat - 1) /
        (pyStep mt ov).toNat)).map (fun k => k * (pyStep mt ov).toNat)).map
          (fun i : ℕ => tk.decode (pySlice (tk.encode text) (i : ℤ) ((i : ℤ) + (mt - 5)))),
        pyStripTruthy c = true := by
      intro c hc
      rcases List.mem_map.mp hc with ⟨i, hi, rfl⟩
      exact hdec _ (pySlice_ne_nil _ i (mt - 5)
        (start_lt_of_mem _ _ (by omega) i hi) (by omega))
    rw [List.filter_eq_self.mpr hall]
    simp [Except.map]
  have hs1 := pyStep_pos mt ov1 hmt h0 (lt_of_le_of_lt h12 h2)
  have hs2 := pyStep_pos mt ov2 hmt (le_trans h0 h12) h2
  have hanti := pyStep_anti mt ov1 ov2 hmt h0 h12
  refine ⟨_, _, hcount ov1 h0 (lt_of_le_of_lt h12 h2), hcount ov2 (le_trans h0 h12) h2, ?_⟩
  exact ceilDiv_anti _ _ _ (by omega) (by omega)

/-- Witness for the amended C6: overlaps 1/10 and 2/10 with a tokenizer
whose windows always decode to the word `d`. -/
theorem C6_witness :
    ∃ n1 n2, (split_document tokThree "t" 512 (mkRat 1 10)).map List.length = .ok n1 ∧
      (split_document tokThree "t" 512 (mkRat 2 10)).map List.length = .ok n2 ∧ n1 ≤ n2 :=
  C6_amended_count_monotone tokThree "t" 512 (mkRat 1 10) (mkRat 2 10)
    (by decide) (by decide) (by decide) (by decide)
    (fun l _ => (by decide : pyStripTruthy "d" = true))

/-- C7 counterexample: non-empty text, valid parameters (step 507 at
least 1), but the only token window decodes to a single space, so
`split_document` returns the EMPTY sequence, contradicting the claimed
non-emptiness. -/
theorem C7_counterexample :
    "a".length = 1 ∧ 1 ≤ pyStep 512 (mkRat 0 1) ∧
      split_document tokSpace "a" 512 (mkRat 0 1) = .ok [] :=
  ⟨by decide, by decide, rfl⟩

/-- C7 amended: for every text and every parameters with step at least
1, `split` returns a finite ordered list without error, and no returned
chunk is empty after trimming; the list is non-empty PROVIDED the token
sequence is non-empty and additionally the first window decodes to a
string with a non-whitespace character (whitespace-only decodes are
filtered out, so a non-empty text alone does not guarantee a non-empty
result). -/
theorem C7_amended_chunks_truthy (tk : Tokenizer) (text : String) (mt : ℤ) (ov : ℚ)
    (hstep : 1 ≤ pyStep mt ov) :
    ∃ cs, split_document tk text mt ov = .ok cs ∧
      (∀ c ∈ cs, pyStripTruthy c = true) ∧
      (1 ≤ (tk.encode text).length →
        pyStripTruthy (tk.decode (pySlice (tk.encode text) 0 (mt - 5))) = true →
        cs ≠ []) := by
  refine ⟨_, split_document_of_pos tk text mt ov hstep, ?_, ?_⟩
  · intro c hc
    exact (List.mem_filter.mp hc).2
  · intro hT hfirst
    have h0s : (0 : ℕ) ∈ (List.range (((tk.encode text).length + (pyStep mt ov).toNat - 1) /
        (pyStep mt ov).toNat)).map (fun k => k * (pyStep mt ov).toNat) :=
      List.mem_map.mpr ⟨0, List.mem_range.mpr (one_le_ceilDiv _ _ hT (by omega)), Nat.zero_mul _⟩
    have hmem := List.mem_map_of_mem
      (fun i : ℕ => tk.decode (pySlice (tk.encode text) (i : ℤ) ((i : ℤ) + (mt - 5)))) h0s
    simp only [Nat.cast_zero, zero_add] at hmem
    exact List.ne_nil_of_mem (List.mem_filter.mpr ⟨hmem, hfirst⟩)

/-- Witness for the amended C7: three tokens, default parameters. -/
theorem C7_witness :
    ∃ cs, split_document tokThree "t" 512 (mkRat 2 10) = .ok cs ∧
      (∀ c ∈ cs, pyStripTruthy c = true) ∧
      (1 ≤ (tokThree.encode "t").length →
        pyStripTruthy (tokThree.decode (pySlice (tokThree.encode "t") 0 (512 - 5))) = true →
        cs ≠ []) :=
  C7_amended_chunks_truthy tokThree "t" 512 (mkRat 2 10) (by decide)

/-- Witness for C10: a raised transport error leaves the data mapping
empty. -/
theorem C10_witness :
    run (.raised "boom") (⟨1, "text", ["d"], 8192⟩ : IngestorService) =
        ⟨false, [], ["Error generating embeddings: boom"]⟩ ∧
      (run (.raised "boom") (⟨1, "text", ["d"], 8192⟩ : IngestorService)).getKey "record_id" = none ∧
      (run (.raised "boom") (⟨1, "text", ["d"], 8192⟩ : IngestorService)).getKey "record_type" = none ∧
      (run (.raised "boom") (⟨1, "text", ["d"], 8192⟩ : IngestorService)).getKey "text" = none ∧
      (run (.raised "boom") (⟨1, "text", ["d"], 8192⟩ : IngestorService)).getKey "embeddings" = none :=
  C10_atomic_on_error (.raised "boom") ⟨1, "text", ["d"], 8192⟩ "Error generating embeddings: boom" rfl

end Services
